import Mathlib

/-!
Verification of the AuthentiChip IC dimension-analysis core against its
natural-language specification.

Shallow embedding of `app/services/crop_dimensions/dimensions.py`
(`ICDimensionAnalyzer`) and `app/services/crop_dimensions/smart_crop.py`
(`SmartCropper`).  All floating-point values of the Python source are
modelled as exact rationals (`ℚ`); OpenCV / numpy primitives that perform
raster work (color conversion, CLAHE, Otsu thresholding, morphology,
`findContours`, `contourArea`, `minAreaRect`, `warpAffine`,
`getRectSubPix`, trigonometry) are external to the analysed logic and are
modelled as inputs: the embedded functions receive the contour areas, the
minimum-area rectangle, the extracted ROI projection profiles and the
cosine/sine of the straightening angle, exactly as the Python code receives
them from those library calls, and then mirror the source's own arithmetic
and control flow on them.
-/

set_option maxRecDepth 100000

deriving instance DecidableEq for Except

namespace AuthentiChip

-- The arithmetic of `ℚ` is irreducible by default; concrete evaluation of
-- the embedded pipeline (witnesses and counterexamples) needs it to reduce.
attribute [local semireducible] Rat.add Rat.mul Rat.inv Rat.sub Rat.ofScientific

/-- A rotated rectangle as returned by `cv2.minAreaRect`:
`center=(cx,cy)`, size `(w,h)`, rotation `angle` in degrees. -/
structure RotRect where
  cx : ℚ
  cy : ℚ
  w : ℚ
  h : ℚ
  angle : ℚ
deriving DecidableEq, Repr

/-- A contour as the analysed code observes it: its enclosed area
(`cv2.contourArea`) and its minimum-area rectangle (`cv2.minAreaRect`),
both computed by external OpenCV calls. -/
structure Contour where
  area : ℚ
  rect : RotRect
deriving DecidableEq, Repr

/-- Result tuple of `ICDimensionAnalyzer._refine_dimensions_projection`:
`(width, height, (center_x, center_y), angle, confidence factor)`. -/
structure RefineResult where
  w : ℚ
  h : ℚ
  cx : ℚ
  cy : ℚ
  angle : ℚ
  conf : ℚ
deriving DecidableEq, Repr

/-- `DetectionResult` dataclass of `dimensions.py` (the optional
`debug_image` raster is external instrumentation and not modelled). -/
structure DetectionResult where
  width : ℚ
  height : ℚ
  angle : ℚ
  confidence : ℚ
  method_name : String
deriving DecidableEq, Repr

/-- `FinalResult` dataclass of `dimensions.py`. -/
structure FinalResult where
  width : ℚ
  height : ℚ
  angle : ℚ
  confidence : ℚ
  methods_agreed : String
  individual_results : List DetectionResult
deriving DecidableEq, Repr

/-- The stats dictionary returned by `SmartCropper.process_image` on
success: `width`, `height`, `angle`, `original_width`, `original_height`. -/
structure CropStats where
  width : ℚ
  height : ℚ
  angle : ℚ
  original_width : ℚ
  original_height : ℚ
deriving DecidableEq, Repr

/-- The five failure modes of `SmartCropper.process_image`, each returned
as `(None, {"error": message})` in the source. -/
inductive CropError where
  | imageNone
  | noContours
  | noValidContours
  | roiFailed
  | dimsTooSmall
deriving DecidableEq, Repr, Fintype

/-- The exact error string `process_image` puts in the stats dict for each
failure mode. -/
def CropError.message : CropError → String
  | .imageNone => "Image is None"
  | .noContours => "No contours found"
  | .noValidContours => "No valid IC contours found"
  | .roiFailed => "ROI extraction failed"
  | .dimsTooSmall => "Calculated dimensions too small"

/-- External data feeding one `SmartCropper.process_image` call: the image
pixel area, the contours found on the binary mask (with their areas and
min-area rects), and the ROI projection profiles (row sums and column sums
of the rotated mask ROI, each divided by 255), `none` when
`cv2.getRectSubPix` returned `None`. -/
structure CropInput where
  imgArea : ℚ
  contours : List Contour
  roi : Option (List ℚ × List ℚ)
deriving DecidableEq, Repr

/-- External data feeding one `ICDimensionAnalyzer` analysis: same contour
data and ROI profiles as for the crop path (both paths compute the binary
mask, contours, rect, rotation and ROI with identical library calls), plus
`cos(radians(-angle))` and `sin(radians(-angle))` of the normalized rect
angle as computed by `np.cos` / `np.sin` in the source. -/
structure AnalyzeInput where
  imgArea : ℚ
  contours : List Contour
  roi : Option (List ℚ × List ℚ)
  cosA : ℚ
  sinA : ℚ
deriving DecidableEq, Repr

/-- `np.max` over a 1-D array, as used on the (always non-empty in the
analysed calls) projection profiles; 0 on the empty list. -/
def npMax : List ℚ → ℚ
  | [] => 0
  | v :: t => t.foldl max v

/-- Python `int()` applied to a float: truncation toward zero. -/
def pyInt (q : ℚ) : ℤ := if q < 0 then -⌊-q⌋ else ⌊q⌋

/-- The `get_range` helper defined identically inside
`ICDimensionAnalyzer._refine_dimensions_projection` and
`SmartCropper.process_image`:

    max_val = np.max(profile)
    if max_val == 0: return 0, 0
    indices = np.where(profile > max_val * threshold_ratio)[0]
    if len(indices) > 0: return indices[0], indices[-1]
    return 0, 0
-/
def get_range (profile : List ℚ) (threshold_r : ℚ) : ℕ × ℕ :=
  if npMax profile = 0 then (0, 0)
  else
    match (List.range profile.length).filter
        (fun i => decide (npMax profile * threshold_r < profile.getD i 0)) with
    | [] => (0, 0)
    | i :: rest => (i, rest.getLastD i)

/-- Orientation normalization in `_refine_dimensions_projection`
(`dimensions.py` lines 172-179): `if w < h: w, h = h, w; angle += 90`. -/
def normalizeRect (r : RotRect) : RotRect :=
  if r.w < r.h then { r with w := r.h, h := r.w, angle := r.angle + 90 } else r

/-- The identical orientation normalization in
`SmartCropper.process_image` (`smart_crop.py` lines 62-65). -/
def cropNormalizeRect (r : RotRect) : RotRect :=
  if r.w < r.h then { r with w := r.h, h := r.w, angle := r.angle + 90 } else r

/-- `ICDimensionAnalyzer._calculate_tail_ratio(row_sum, height)`:

    norm_profile = row_sum / (np.max(row_sum) + 1e-6)
    indices = np.where((norm_profile > 0.2) & (norm_profile < 0.95))[0]
    if len(indices) == 0: return 0.0
    return len(indices) / height
-/
def tailRatioOf (row_sum : List ℚ) (height : ℚ) : ℚ :=
  let m := npMax row_sum
  let norm := row_sum.map (fun v => v / (m + 1/1000000))
  let n := (norm.filter (fun v => decide (((20/100) : ℚ) < v ∧ v < ((95/100) : ℚ)))).length
  if n = 0 then 0 else (n : ℚ) / height

/-- `h_est` of `_refine_dimensions_projection`: the 90%-threshold row
range length, replaced by the rect height when zero. -/
def hEstOf (h : ℚ) (row_sum : List ℚ) : ℚ :=
  let p := get_range row_sum (90/100)
  let d : ℚ := (((p.2 : ℤ) - (p.1 : ℤ) : ℤ) : ℚ)
  if d = 0 then h else d

/-- `w_est` of `_refine_dimensions_projection`: the 90%-threshold column
range length, replaced by the rect width when zero. -/
def wEstOf (w : ℚ) (col_sum : List ℚ) : ℚ :=
  let p := get_range col_sum (90/100)
  let d : ℚ := (((p.2 : ℤ) - (p.1 : ℤ) : ℤ) : ℚ)
  if d = 0 then w else d

/-- `ar_est = w_est / h_est`. -/
def arEstOf (w h : ℚ) (row_sum col_sum : List ℚ) : ℚ :=
  wEstOf w col_sum / hEstOf h row_sum

/-- `slope_h = h_wide / h_est if h_est > 0 else 1.0` with `h_wide` the
50%-threshold row range length. -/
def slopeHOf (h : ℚ) (row_sum : List ℚ) : ℚ :=
  let p := get_range row_sum (50/100)
  let h_wide : ℚ := (((p.2 : ℤ) - (p.1 : ℤ) : ℤ) : ℚ)
  if 0 < hEstOf h row_sum then h_wide / hEstOf h row_sum else 1

/-- `slope_w = w_wide / w_est if w_est > 0 else 1.0` with `w_wide` the
50%-threshold column range length. -/
def slopeWOf (w : ℚ) (col_sum : List ℚ) : ℚ :=
  let p := get_range col_sum (50/100)
  let w_wide : ℚ := (((p.2 : ℤ) - (p.1 : ℤ) : ℤ) : ℚ)
  if 0 < wEstOf w col_sum then w_wide / wEstOf w col_sum else 1

/-- The package-family threshold selection of
`_refine_dimensions_projection` (source lines 232-301), extracted as the
pure function of `(ar_est, slope_h, slope_w, tail_ratio)` that the branch
structure computes; in the DIP-like branch the source assigns `thresh_h`
and `thresh_w` by two separate conditionals on the same tail-ratio test. -/
def selectThresholds (ar_est slope_h slope_w tail_r : ℚ) : ℚ × ℚ :=
  if ar_est < (135/100) then ((80/100), (80/100))
  else if (27/10) < ar_est ∨ (122/100) < slope_h then
    let thresh_h : ℚ := if (25/100) < tail_r then (875/1000) else (959/1000)
    let thresh_w : ℚ := if (25/100) < tail_r then (58/100) else (70/100)
    (thresh_h, thresh_w)
  else if (110/100) < slope_w then ((92/100), (50/100))
  else ((85/100), (80/100))

/-- The decision table exactly as the specification words it (spec §4.4
step 7), for comparison with the source's `selectThresholds`. -/
def specThresholds (ar_est slope_h slope_w tail_r : ℚ) : ℚ × ℚ :=
  if ar_est < (135/100) then ((80/100), (80/100))
  else if (27/10) < ar_est ∨ (122/100) < slope_h then
    if (25/100) < tail_r then ((875/1000), (58/100)) else ((959/1000), (70/100))
  else if (110/100) < slope_w then ((92/100), (50/100))
  else ((85/100), (80/100))

/-- The branch block of `_refine_dimensions_projection`: estimates
`ar_est`, the two slopes and (in the DIP-like branch) the tail ratio, and
produces the `(y_start, y_end)` and `(x_start, x_end)` ranges; every
branch of the source ends in `get_range(row_sum, thresh_h)` and
`get_range(col_sum, thresh_w)` with its branch's threshold pair. -/
def refineBranch (w h : ℚ) (row_sum col_sum : List ℚ) : (ℕ × ℕ) × (ℕ × ℕ) :=
  if arEstOf w h row_sum col_sum < (135/100) then
    (get_range row_sum (80/100), get_range col_sum (80/100))
  else if (27/10) < arEstOf w h row_sum col_sum ∨ (122/100) < slopeHOf h row_sum then
    if (25/100) < tailRatioOf row_sum h then
      (get_range row_sum (875/1000), get_range col_sum (58/100))
    else
      (get_range row_sum (959/1000), get_range col_sum (70/100))
  else if (110/100) < slopeWOf w col_sum then
    (get_range row_sum (92/100), get_range col_sum (50/100))
  else
    (get_range row_sum (85/100), get_range col_sum (80/100))

/-- `ICDimensionAnalyzer._refine_dimensions_projection`, with the external
raster operations abstracted as described on `AnalyzeInput`: `rect` is the
`cv2.minAreaRect` of the contour, `roi` carries the two projection
profiles of the extracted ROI (or `none` for a failed/empty extraction,
the `roi is None or roi.size == 0` test), and `cosA`/`sinA` are the values
of `np.cos(np.radians(-angle))` / `np.sin(np.radians(-angle))`. -/
def refineProjection (rect : RotRect) (roi : Option (List ℚ × List ℚ))
    (cosA sinA : ℚ) : RefineResult :=
  let r := normalizeRect rect
  match roi with
  | none => ⟨r.w, r.h, r.cx, r.cy, r.angle, 0⟩
  | some (row_sum, col_sum) =>
    if row_sum = [] ∨ col_sum = [] then ⟨r.w, r.h, r.cx, r.cy, r.angle, 0⟩
    else
      let rg := refineBranch r.w r.h row_sum col_sum
      let y_start := rg.1.1
      let y_end := rg.1.2
      let x_start := rg.2.1
      let x_end := rg.2.2
      let new_h : ℤ := (y_end : ℤ) - (y_start : ℤ)
      let new_w : ℤ := (x_end : ℤ) - (x_start : ℤ)
      if new_h < 10 ∨ new_w < 10 then ⟨r.w, r.h, r.cx, r.cy, r.angle, 0⟩
      else
        let roi_w : ℤ := pyInt (r.w + 50 * 2)
        let roi_h : ℤ := pyInt (r.h + 50 * 2)
        let roi_center_y : ℤ := Int.fdiv roi_h 2
        let roi_center_x : ℤ := Int.fdiv roi_w 2
        let crop_center_x : ℚ := ((x_start : ℚ) + (x_end : ℚ)) / 2
        let crop_center_y : ℚ := ((y_start : ℚ) + (y_end : ℚ)) / 2
        let shift_x : ℚ := crop_center_x - (roi_center_x : ℚ)
        let shift_y : ℚ := crop_center_y - (roi_center_y : ℚ)
        let global_shift_x : ℚ := shift_x * cosA - shift_y * sinA
        let global_shift_y : ℚ := shift_x * sinA + shift_y * cosA
        ⟨(new_w : ℚ), (new_h : ℚ), r.cx + global_shift_x,
          r.cy + global_shift_y, r.angle, 1⟩

/-- The contour area filter shared by both paths:
`0.01 * img_area < cv2.contourArea(c) < 0.9 * img_area`. -/
def validContours (imgArea : ℚ) (cs : List Contour) : List Contour :=
  cs.filter (fun c => decide (((1/100) : ℚ) * imgArea < c.area ∧ c.area < ((9/10) : ℚ) * imgArea))

/-- Python `max(valid_contours, key=cv2.contourArea)`: the first contour
of maximal area. -/
def pyMaxByArea (c : Contour) (rest : List Contour) : Contour :=
  rest.foldl (fun b x => if b.area < x.area then x else b) c

/-- `ICDimensionAnalyzer._find_ic_body_contour`, reduced to the contour
selection it performs once `findContours` has produced the contour list:
fail on no contours, filter by area fraction, fail on no valid contour,
else pick the largest valid contour. -/
def find_ic_body_contour (imgArea : ℚ) (cs : List Contour) : Option Contour :=
  match cs with
  | [] => none
  | _ =>
    match validContours imgArea cs with
    | [] => none
    | c :: rest => some (pyMaxByArea c rest)

/-- `SmartCropper.process_image`, with the external raster operations
abstracted as described on `CropInput`.  The refinement step uses the
fixed threshold pair `(0.85, 0.80)` of the source ("simplified from
original for robustness"), not the package-family branch. -/
def process_image (inp : Option CropInput) : Except CropError CropStats :=
  match inp with
  | none => .error .imageNone
  | some i =>
    match i.contours with
    | [] => .error .noContours
    | _ =>
      match validContours i.imgArea i.contours with
      | [] => .error .noValidContours
      | c :: rest =>
        let ic := pyMaxByArea c rest
        let r := cropNormalizeRect ic.rect
        match i.roi with
        | none => .error .roiFailed
        | some (row_sum, col_sum) =>
          let yr := get_range row_sum (85/100)
          let xr := get_range col_sum (80/100)
          let final_h : ℤ := (yr.2 : ℤ) - (yr.1 : ℤ)
          let final_w : ℤ := (xr.2 : ℤ) - (xr.1 : ℤ)
          if final_h < 10 ∨ final_w < 10 then .error .dimsTooSmall
          else .ok ⟨(final_w : ℚ), (final_h : ℚ), r.angle, r.w, r.h⟩

/-- `ICDimensionAnalyzer._method1_adaptive_threshold`: contour detection
followed by projection refinement; confidence is `0.9 * conf_factor`. -/
def method1 (i : AnalyzeInput) : Option DetectionResult :=
  match find_ic_body_contour i.imgArea i.contours with
  | none => none
  | some ic =>
    let r := refineProjection ic.rect i.roi i.cosA i.sinA
    some ⟨r.w, r.h, r.angle, (9/10) * r.conf, "Adaptive_Threshold"⟩

/-- `ICDimensionAnalyzer.analyze` after image loading (loading and the
null-image `ValueError` are external I/O): runs the single detection
method and raises `ValueError("Detection failed! Could not find IC
body.")` when it returns no result. -/
def analyze (i : AnalyzeInput) : Except String FinalResult :=
  match method1 i with
  | none => .error "Detection failed! Could not find IC body."
  | some res => .ok ⟨res.width, res.height, res.angle, res.confidence,
      "1/1 (Robust Adaptive)", [res]⟩

/-- Mathematical rotation of a 2-D vector by the angle whose cosine and
sine are `c` and `s`. -/
def rot2 (c s : ℚ) (v : ℚ × ℚ) : ℚ × ℚ :=
  (v.1 * c - v.2 * s, v.1 * s + v.2 * c)

/-- The tail ratio exactly as the specification words it (spec §4.4 step
7): the fraction of profile rows whose value, normalized by the profile
maximum, lies strictly between 0.2 and 0.95. -/
def specTailRatio (row_sum : List ℚ) : ℚ :=
  let m := npMax row_sum
  (((row_sum.filter (fun v => decide (((20/100) : ℚ) < v / m ∧ v / m < ((95/100) : ℚ)))).length : ℚ))
    / (row_sum.length : ℚ)

/-- The family branch chooses the "SOIC/QFP-like standard" thresholds
`(0.85, 0.80)` — the only branch whose thresholds agree with the crop
path's fixed pair. -/
def branchStd (w h : ℚ) (row_sum col_sum : List ℚ) : Prop :=
  ¬ arEstOf w h row_sum col_sum < (135/100) ∧
  ¬ ((27/10) < arEstOf w h row_sum col_sum ∨ (122/100) < slopeHOf h row_sum) ∧
  ¬ (110/100) < slopeWOf w col_sum

instance (w h : ℚ) (row_sum col_sum : List ℚ) :
    Decidable (branchStd w h row_sum col_sum) := by
  unfold branchStd; infer_instance

/-- The sanity-check condition of step 3 of the refinement
(`new_h < 10 or new_w < 10`), phrased on the ranges produced by the
family branch. -/
def refineDegenerate (w h : ℚ) (row_sum col_sum : List ℚ) : Prop :=
  ((refineBranch w h row_sum col_sum).1.2 : ℤ) -
      ((refineBranch w h row_sum col_sum).1.1 : ℤ) < 10 ∨
  ((refineBranch w h row_sum col_sum).2.2 : ℤ) -
      ((refineBranch w h row_sum col_sum).2.1 : ℤ) < 10

instance (w h : ℚ) (row_sum col_sum : List ℚ) :
    Decidable (refineDegenerate w h row_sum col_sum) := by
  unfold refineDegenerate; infer_instance

/-! ### Helper lemmas about `npMax` and `get_range` -/

lemma le_foldl_max (l : List ℚ) (a : ℚ) : a ≤ l.foldl max a := by
  induction l generalizing a with
  | nil => exact le_refl a
  | cons b t ih => exact le_trans (le_max_left a b) (ih (max a b))

lemma mem_le_foldl_max (l : List ℚ) (a : ℚ) {v : ℚ} (hv : v ∈ l) :
    v ≤ l.foldl max a := by
  induction l generalizing a with
  | nil => cases hv
  | cons b t ih =>
    rcases List.mem_cons.mp hv with rfl | h
    · exact le_trans (le_max_right a v) (le_foldl_max t (max a v))
    · exact ih (max a b) h

lemma npMax_ge {p : List ℚ} {v : ℚ} (hv : v ∈ p) : v ≤ npMax p := by
  cases p with
  | nil => cases hv
  | cons a t =>
    rcases List.mem_cons.mp hv with rfl | h
    · exact le_foldl_max t v
    · exact mem_le_foldl_max t a h

lemma npMax_nonneg {p : List ℚ} (hp : ∀ v ∈ p, 0 ≤ v) : 0 ≤ npMax p := by
  cases p with
  | nil => exact le_refl 0
  | cons a t =>
    exact le_trans (hp a (List.mem_cons_self a t)) (npMax_ge (List.mem_cons_self a t))

lemma getLastD_mem_cons (l : List ℕ) (a : ℕ) : l.getLastD a ∈ a :: l := by
  induction l generalizing a with
  | nil => exact List.mem_singleton.mpr rfl
  | cons b t ih =>
    rw [List.getLastD_cons]
    exact List.mem_cons_of_mem a (ih b)

lemma pairwise_head_le {a : ℕ} {l : List ℕ} (h : (a :: l).Pairwise (· < ·)) :
    ∀ x ∈ a :: l, a ≤ x := by
  intro x hx
  rcases List.mem_cons.mp hx with rfl | hx
  · exact le_refl x
  · exact le_of_lt ((List.pairwise_cons.mp h).1 x hx)

lemma pairwise_le_getLastD {a : ℕ} {l : List ℕ} (h : (a :: l).Pairwise (· < ·)) :
    ∀ x ∈ a :: l, x ≤ l.getLastD a := by
  induction l generalizing a with
  | nil =>
    intro x hx
    rcases List.mem_cons.mp hx with rfl | hx
    · exact le_refl x
    · cases hx
  | cons b t ih =>
    intro x hx
    rw [List.getLastD_cons]
    rcases List.mem_cons.mp hx with rfl | hx
    · exact pairwise_head_le h _ (List.mem_cons_of_mem x (getLastD_mem_cons t b))
    · exact ih (List.pairwise_cons.mp h).2 x hx

lemma get_range_zero {p : List ℚ} (r : ℚ) (h : npMax p = 0) :
    get_range p r = (0, 0) := by
  unfold get_range; rw [if_pos h]

lemma get_range_noIndex {p : List ℚ} (r : ℚ)
    (h : ∀ i, i < p.length → ¬ npMax p * r < p.getD i 0) :
    get_range p r = (0, 0) := by
  unfold get_range
  split_ifs with hm
  · rfl
  · have hnil : (List.range p.length).filter
        (fun i => decide (npMax p * r < p.getD i 0)) = [] := by
      refine List.filter_eq_nil_iff.mpr ?_
      intro a ha
      simpa using h a (List.mem_range.mp ha)
    rw [hnil]

lemma getD_mem {p : List ℚ} {j : ℕ} (hj : j < p.length) : p.getD j 0 ∈ p := by
  rw [List.getD_eq_getElem p 0 hj]
  exact List.getElem_mem hj

lemma get_range_mem_spec {p : List ℚ} {r : ℚ} {j : ℕ} (hj : j < p.length)
    (hpred : npMax p * r < p.getD j 0) :
    (get_range p r).1 < p.length ∧ (get_range p r).2 < p.length ∧
    npMax p * r < p.getD (get_range p r).1 0 ∧
    npMax p * r < p.getD (get_range p r).2 0 ∧
    (get_range p r).1 ≤ j ∧ j ≤ (get_range p r).2 := by
  have hm : npMax p ≠ 0 := by
    intro h0
    have hv : p.getD j 0 ≤ npMax p := npMax_ge (getD_mem hj)
    rw [h0, zero_mul] at hpred
    rw [h0] at hv
    exact absurd (lt_of_lt_of_le hpred hv) (lt_irrefl 0)
  have hjmem : j ∈ (List.range p.length).filter
      (fun i => decide (npMax p * r < p.getD i 0)) :=
    List.mem_filter.mpr ⟨List.mem_range.mpr hj, by simpa using hpred⟩
  cases hcons : (List.range p.length).filter
      (fun i => decide (npMax p * r < p.getD i 0)) with
  | nil => rw [hcons] at hjmem; cases hjmem
  | cons a rest =>
    have hres : get_range p r = (a, rest.getLastD a) := by
      unfold get_range
      rw [if_neg hm, hcons]
    have hsorted : ((List.range p.length).filter
        (fun i => decide (npMax p * r < p.getD i 0))).Pairwise (· < ·) :=
      List.Pairwise.filter _ (List.sorted_lt_range p.length)
    rw [hcons] at hsorted hjmem
    have hprop : ∀ x ∈ a :: rest, x < p.length ∧ npMax p * r < p.getD x 0 := by
      intro x hx
      rw [← hcons] at hx
      have hx' := List.mem_filter.mp hx
      exact ⟨List.mem_range.mp hx'.1, of_decide_eq_true hx'.2⟩
    have h1 := hprop a (List.mem_cons_self a rest)
    have h2 := hprop _ (getLastD_mem_cons rest a)
    rw [hres]
    exact ⟨h1.1, h2.1, h1.2, h2.2, pairwise_head_le hsorted j hjmem,
      pairwise_le_getLastD hsorted j hjmem⟩

lemma get_range_cases (p : List ℚ) (r : ℚ) :
    get_range p r = (0, 0) ∨
    ((get_range p r).1 < p.length ∧ (get_range p r).2 < p.length ∧
     (get_range p r).1 ≤ (get_range p r).2) := by
  by_cases hm : npMax p = 0
  · exact Or.inl (get_range_zero r hm)
  · cases hcons : (List.range p.length).filter
        (fun i => decide (npMax p * r < p.getD i 0)) with
    | nil =>
      left
      unfold get_range
      rw [if_neg hm, hcons]
    | cons a rest =>
      have hamem : a ∈ (List.range p.length).filter
          (fun i => decide (npMax p * r < p.getD i 0)) := by
        rw [hcons]; exact List.mem_cons_self a rest
      have ha' := List.mem_filter.mp hamem
      have hspec := get_range_mem_spec (List.mem_range.mp ha'.1)
        (of_decide_eq_true ha'.2)
      exact Or.inr ⟨hspec.1, hspec.2.1,
        le_trans hspec.2.2.2.2.1 hspec.2.2.2.2.2⟩

/-! ### Shape lemmas for the refinement and the two pipelines -/

lemma cropNormalizeRect_eq (r : RotRect) : cropNormalizeRect r = normalizeRect r := rfl

lemma refineProjection_none (rect : RotRect) (cosA sinA : ℚ) :
    refineProjection rect none cosA sinA =
      ⟨(normalizeRect rect).w, (normalizeRect rect).h, (normalizeRect rect).cx,
       (normalizeRect rect).cy, (normalizeRect rect).angle, 0⟩ := rfl

lemma refineProjection_empty (rect : RotRect) (rs cs : List ℚ) (cosA sinA : ℚ)
    (h : rs = [] ∨ cs = []) :
    refineProjection rect (some (rs, cs)) cosA sinA =
      ⟨(normalizeRect rect).w, (normalizeRect rect).h, (normalizeRect rect).cx,
       (normalizeRect rect).cy, (normalizeRect rect).angle, 0⟩ := by
  unfold refineProjection
  dsimp only
  rw [if_pos h]

lemma refineProjection_degenerate (rect : RotRect) (rs cs : List ℚ) (cosA sinA : ℚ)
    (hne : ¬ (rs = [] ∨ cs = []))
    (hdeg : refineDegenerate (normalizeRect rect).w (normalizeRect rect).h rs cs) :
    refineProjection rect (some (rs, cs)) cosA sinA =
      ⟨(normalizeRect rect).w, (normalizeRect rect).h, (normalizeRect rect).cx,
       (normalizeRect rect).cy, (normalizeRect rect).angle, 0⟩ := by
  unfold refineDegenerate at hdeg
  unfold refineProjection
  dsimp only
  rw [if_neg hne, if_pos hdeg]

lemma refineProjection_success (rect : RotRect) (rs cs : List ℚ) (cosA sinA : ℚ)
    (hne : ¬ (rs = [] ∨ cs = []))
    (hdeg : ¬ refineDegenerate (normalizeRect rect).w (normalizeRect rect).h rs cs) :
    refineProjection rect (some (rs, cs)) cosA sinA =
      ⟨((((refineBranch (normalizeRect rect).w (normalizeRect rect).h rs cs).2.2 : ℤ) -
          ((refineBranch (normalizeRect rect).w (normalizeRect rect).h rs cs).2.1 : ℤ) : ℤ) : ℚ),
       ((((refineBranch (normalizeRect rect).w (normalizeRect rect).h rs cs).1.2 : ℤ) -
          ((refineBranch (normalizeRect rect).w (normalizeRect rect).h rs cs).1.1 : ℤ) : ℤ) : ℚ),
       (normalizeRect rect).cx +
         (((((refineBranch (normalizeRect rect).w (normalizeRect rect).h rs cs).2.1 : ℚ) +
            ((refineBranch (normalizeRect rect).w (normalizeRect rect).h rs cs).2.2 : ℚ)) / 2 -
            ((Int.fdiv (pyInt ((normalizeRect rect).w + 50 * 2)) 2 : ℤ) : ℚ)) * cosA -
          ((((refineBranch (normalizeRect rect).w (normalizeRect rect).h rs cs).1.1 : ℚ) +
            ((refineBranch (normalizeRect rect).w (normalizeRect rect).h rs cs).1.2 : ℚ)) / 2 -
            ((Int.fdiv (pyInt ((normalizeRect rect).h + 50 * 2)) 2 : ℤ) : ℚ)) * sinA),
       (normalizeRect rect).cy +
         (((((refineBranch (normalizeRect rect).w (normalizeRect rect).h rs cs).2.1 : ℚ) +
            ((refineBranch (normalizeRect rect).w (normalizeRect rect).h rs cs).2.2 : ℚ)) / 2 -
            ((Int.fdiv (pyInt ((normalizeRect rect).w + 50 * 2)) 2 : ℤ) : ℚ)) * sinA +
          ((((refineBranch (normalizeRect rect).w (normalizeRect rect).h rs cs).1.1 : ℚ) +
            ((refineBranch (normalizeRect rect).w (normalizeRect rect).h rs cs).1.2 : ℚ)) / 2 -
            ((Int.fdiv (pyInt ((normalizeRect rect).h + 50 * 2)) 2 : ℤ) : ℚ)) * cosA),
       (normalizeRect rect).angle, 1⟩ := by
  unfold refineDegenerate at hdeg
  unfold refineProjection
  dsimp only
  rw [if_neg hne, if_neg hdeg]

lemma refineProjection_conf01 (rect : RotRect) (roi : Option (List ℚ × List ℚ))
    (cosA sinA : ℚ) :
    (refineProjection rect roi cosA sinA).conf = 0 ∨
    (refineProjection rect roi cosA sinA).conf = 1 := by
  cases roi with
  | none => exact Or.inl rfl
  | some pr =>
    obtain ⟨rs, cs⟩ := pr
    by_cases hne : rs = [] ∨ cs = []
    · rw [refineProjection_empty rect rs cs cosA sinA hne]
      exact Or.inl rfl
    · by_cases hdeg : refineDegenerate (normalizeRect rect).w (normalizeRect rect).h rs cs
      · rw [refineProjection_degenerate rect rs cs cosA sinA hne hdeg]
        exact Or.inl rfl
      · rw [refineProjection_success rect rs cs cosA sinA hne hdeg]
        exact Or.inr rfl

lemma refineProjection_succ_cases (rect : RotRect) (rs cs : List ℚ) (cosA sinA : ℚ)
    (hconf : (refineProjection rect (some (rs, cs)) cosA sinA).conf = 1) :
    ¬ (rs = [] ∨ cs = []) ∧
    ¬ refineDegenerate (normalizeRect rect).w (normalizeRect rect).h rs cs := by
  by_cases hne : rs = [] ∨ cs = []
  · rw [refineProjection_empty rect rs cs cosA sinA hne] at hconf
    exact absurd hconf (by norm_num)
  · by_cases hdeg : refineDegenerate (normalizeRect rect).w (normalizeRect rect).h rs cs
    · rw [refineProjection_degenerate rect rs cs cosA sinA hne hdeg] at hconf
      exact absurd hconf (by norm_num)
    · exact ⟨hne, hdeg⟩

lemma refineBranch_pair (w h : ℚ) (rs cs : List ℚ) :
    refineBranch w h rs cs =
      (get_range rs (selectThresholds (arEstOf w h rs cs) (slopeHOf h rs)
          (slopeWOf w cs) (tailRatioOf rs h)).1,
       get_range cs (selectThresholds (arEstOf w h rs cs) (slopeHOf h rs)
          (slopeWOf w cs) (tailRatioOf rs h)).2) := by
  unfold refineBranch selectThresholds
  split_ifs <;> rfl

lemma refineBranch_std (w h : ℚ) (rs cs : List ℚ) (hstd : branchStd w h rs cs) :
    refineBranch w h rs cs = (get_range rs (85/100), get_range cs (80/100)) := by
  obtain ⟨h1, h2, h3⟩ := hstd
  unfold refineBranch
  rw [if_neg h1, if_neg h2, if_neg h3]

lemma pyMaxByArea_mem (c : Contour) (rest : List Contour) :
    pyMaxByArea c rest ∈ c :: rest := by
  induction rest generalizing c with
  | nil => exact List.mem_singleton.mpr rfl
  | cons b t ih =>
    rw [pyMaxByArea, List.foldl_cons]
    have hmem := ih (if c.area < b.area then b else c)
    rw [pyMaxByArea] at hmem
    rcases List.mem_cons.mp hmem with heq | hmem'
    · rw [heq]
      split_ifs
      · exact List.mem_cons_of_mem c (List.mem_cons_self b t)
      · exact List.mem_cons_self c (b :: t)
    · exact List.mem_cons_of_mem c (List.mem_cons_of_mem b hmem')

lemma pyMaxByArea_ge (c : Contour) (rest : List Contour) :
    ∀ x ∈ c :: rest, x.area ≤ (pyMaxByArea c rest).area := by
  induction rest generalizing c with
  | nil =>
    intro x hx
    rcases List.mem_cons.mp hx with rfl | hx'
    · exact le_refl _
    · cases hx'
  | cons b t ih =>
    intro x hx
    rw [pyMaxByArea, List.foldl_cons]
    have hc : c.area ≤ (if c.area < b.area then b else c).area := by
      split_ifs with hh
      · exact le_of_lt hh
      · exact le_refl _
    have hb : b.area ≤ (if c.area < b.area then b else c).area := by
      split_ifs with hh
      · exact le_refl _
      · exact le_of_not_lt hh
    have hhead := ih (if c.area < b.area then b else c) _
      (List.mem_cons_self (if c.area < b.area then b else c) t)
    rw [pyMaxByArea] at hhead
    rcases List.mem_cons.mp hx with rfl | hx'
    · exact le_trans hc hhead
    · rcases List.mem_cons.mp hx' with rfl | hx''
      · exact le_trans hb hhead
      · have hx3 := ih (if c.area < b.area then b else c) x (List.mem_cons_of_mem _ hx'')
        rw [pyMaxByArea] at hx3
        exact hx3

lemma find_eq_none_iff (A : ℚ) (cs : List Contour) :
    find_ic_body_contour A cs = none ↔ validContours A cs = [] := by
  cases cs with
  | nil => simp [find_ic_body_contour, validContours]
  | cons a t =>
    unfold find_ic_body_contour
    dsimp only
    cases hv : validContours A (a :: t) with
    | nil => simp
    | cons c rest => simp

lemma find_some_spec (A : ℚ) (cs : List Contour) (r : Contour)
    (h : find_ic_body_contour A cs = some r) :
    r ∈ validContours A cs ∧ ∀ x ∈ validContours A cs, x.area ≤ r.area := by
  cases cs with
  | nil => cases h
  | cons a t =>
    unfold find_ic_body_contour at h
    dsimp only at h
    cases hv : validContours A (a :: t) with
    | nil => rw [hv] at h; cases h
    | cons c rest =>
      rw [hv] at h
      injection h with h'
      rw [← h']
      exact ⟨pyMaxByArea_mem c rest, pyMaxByArea_ge c rest⟩

lemma process_image_ok_shape (i : CropInput) (stats : CropStats)
    (h : process_image (some i) = .ok stats) :
    ∃ (ic : Contour) (rs cs : List ℚ),
      find_ic_body_contour i.imgArea i.contours = some ic ∧
      i.roi = some (rs, cs) ∧
      ¬ (((get_range rs (85/100)).2 : ℤ) - ((get_range rs (85/100)).1 : ℤ) < 10 ∨
         ((get_range cs (80/100)).2 : ℤ) - ((get_range cs (80/100)).1 : ℤ) < 10) ∧
      stats = ⟨((((get_range cs (80/100)).2 : ℤ) - ((get_range cs (80/100)).1 : ℤ) : ℤ) : ℚ),
               ((((get_range rs (85/100)).2 : ℤ) - ((get_range rs (85/100)).1 : ℤ) : ℤ) : ℚ),
               (normalizeRect ic.rect).angle, (normalizeRect ic.rect).w,
               (normalizeRect ic.rect).h⟩ := by
  unfold process_image at h
  dsimp only at h
  cases hcs : i.contours with
  | nil => rw [hcs] at h; exact Except.noConfusion h
  | cons a t =>
    rw [hcs] at h
    dsimp only at h
    cases hv : validContours i.imgArea (a :: t) with
    | nil => rw [hv] at h; exact Except.noConfusion h
    | cons c rest =>
      rw [hv] at h
      dsimp only at h
      cases hroi : i.roi with
      | none => rw [hroi] at h; exact Except.noConfusion h
      | some pr =>
        obtain ⟨rs, cs⟩ := pr
        rw [hroi] at h
        dsimp only at h
        by_cases hsm : ((get_range rs (85/100)).2 : ℤ) - ((get_range rs (85/100)).1 : ℤ) < 10 ∨
            ((get_range cs (80/100)).2 : ℤ) - ((get_range cs (80/100)).1 : ℤ) < 10
        · rw [if_pos hsm] at h
          exact Except.noConfusion h
        · rw [if_neg hsm] at h
          injection h with h'
          refine ⟨pyMaxByArea c rest, rs, cs, ?_, rfl, hsm, h'.symm⟩
          unfold find_ic_body_contour
          dsimp only
          rw [hv]

lemma analyze_shape (i : AnalyzeInput) :
    (find_ic_body_contour i.imgArea i.contours = none →
      analyze i = .error "Detection failed! Could not find IC body.") ∧
    (∀ ic, find_ic_body_contour i.imgArea i.contours = some ic →
      analyze i = .ok ⟨(refineProjection ic.rect i.roi i.cosA i.sinA).w,
        (refineProjection ic.rect i.roi i.cosA i.sinA).h,
        (refineProjection ic.rect i.roi i.cosA i.sinA).angle,
        (9/10) * (refineProjection ic.rect i.roi i.cosA i.sinA).conf,
        "1/1 (Robust Adaptive)",
        [⟨(refineProjection ic.rect i.roi i.cosA i.sinA).w,
          (refineProjection ic.rect i.roi i.cosA i.sinA).h,
          (refineProjection ic.rect i.roi i.cosA i.sinA).angle,
          (9/10) * (refineProjection ic.rect i.roi i.cosA i.sinA).conf,
          "Adaptive_Threshold"⟩]⟩) := by
  constructor
  · intro hf
    unfold analyze method1
    rw [hf]
  · intro ic hf
    unfold analyze method1
    rw [hf]

/-! ### Claim theorems -/

/-- Claim C2: the package-family threshold selection is the pure function
of `(ar_est, slope_h, slope_w, tail_ratio)` given by the spec's decision
table — `ar_est < 1.35` gives `(0.80, 0.80)`; else `ar_est > 2.7` or
`slope_h > 1.22` gives `(0.875, 0.58)` for `tail_ratio > 0.25` and
`(0.959, 0.70)` otherwise; else `slope_w > 1.10` gives `(0.92, 0.50)` and
`(0.85, 0.80)` otherwise — with the constants fixed at analysis time, and
the refinement branch applies exactly these thresholds through
`get_range` on the row/column profiles. -/
theorem C2_threshold_table (ar_est slope_h slope_w tail_r w h : ℚ)
    (rs cs : List ℚ) :
    selectThresholds ar_est slope_h slope_w tail_r =
      specThresholds ar_est slope_h slope_w tail_r ∧
    refineBranch w h rs cs =
      (get_range rs (selectThresholds (arEstOf w h rs cs) (slopeHOf h rs)
          (slopeWOf w cs) (tailRatioOf rs h)).1,
       get_range cs (selectThresholds (arEstOf w h rs cs) (slopeHOf h rs)
          (slopeWOf w cs) (tailRatioOf rs h)).2) := by
  constructor
  · unfold selectThresholds specThresholds
    split_ifs <;> rfl
  · exact refineBranch_pair w h rs cs

/-- Claim C3: after orientation normalization of the minimum-area
rectangle, if the reported width was less than the height then width and
height are swapped and 90 degrees is added to the angle, the resulting
rectangle always satisfies `width ≥ height`, and the crop path performs
the identical normalization. -/
theorem C3_orientation_normalization (r : RotRect) :
    (r.w < r.h → normalizeRect r = ⟨r.cx, r.cy, r.h, r.w, r.angle + 90⟩) ∧
    (¬ r.w < r.h → normalizeRect r = r) ∧
    (normalizeRect r).h ≤ (normalizeRect r).w ∧
    cropNormalizeRect r = normalizeRect r := by
  refine ⟨?_, ?_, ?_, rfl⟩
  · intro hlt
    unfold normalizeRect
    rw [if_pos hlt]
  · intro hge
    unfold normalizeRect
    rw [if_neg hge]
  · unfold normalizeRect
    split_ifs with hlt
    · exact le_of_lt hlt
    · exact le_of_not_lt hlt

/-- Witness for C3 at the concrete rectangle `(w, h) = (2, 5)`,
`angle = 30`. -/
theorem C3_witness :
    normalizeRect ⟨0, 0, 2, 5, 30⟩ = ⟨0, 0, 5, 2, 30 + 90⟩ ∧
    (normalizeRect ⟨0, 0, 2, 5, 30⟩).h ≤ (normalizeRect ⟨0, 0, 2, 5, 30⟩).w := by
  constructor
  · exact (C3_orientation_normalization ⟨0, 0, 2, 5, 30⟩).1 (by norm_num)
  · exact (C3_orientation_normalization ⟨0, 0, 2, 5, 30⟩).2.2.1

/-- Claim C4: a contour is retained iff its area lies strictly between
`0.01·A` and `0.90·A`; among retained contours the one of maximum area is
selected; if none is retained the selector reports failure; a blob of
exactly 0.5 percent of the image area is rejected and one of exactly 50
percent is accepted. -/
theorem C4_area_filter (A : ℚ) (cs : List Contour) :
    (∀ c, c ∈ validContours A cs ↔
        c ∈ cs ∧ (1/100) * A < c.area ∧ c.area < (9/10) * A) ∧
    (find_ic_body_contour A cs = none ↔ validContours A cs = []) ∧
    (∀ r, find_ic_body_contour A cs = some r →
        r ∈ validContours A cs ∧ ∀ x ∈ validContours A cs, x.area ≤ r.area) ∧
    find_ic_body_contour 1000 [⟨5, ⟨0, 0, 1, 1, 0⟩⟩] = none ∧
    find_ic_body_contour 1000 [⟨500, ⟨0, 0, 1, 1, 0⟩⟩] =
      some ⟨500, ⟨0, 0, 1, 1, 0⟩⟩ := by
  refine ⟨?_, find_eq_none_iff A cs, fun r h => find_some_spec A cs r h,
    by decide, by decide⟩
  intro c
  simp [validContours, List.mem_filter]

/-- Witness for C4: the 50-percent blob is retained and selected. -/
theorem C4_witness :
    (⟨500, ⟨0, 0, 1, 1, 0⟩⟩ : Contour) ∈
      validContours 1000 [⟨500, ⟨0, 0, 1, 1, 0⟩⟩] ∧
    find_ic_body_contour 1000 [⟨500, ⟨0, 0, 1, 1, 0⟩⟩] =
      some ⟨500, ⟨0, 0, 1, 1, 0⟩⟩ := by
  constructor
  · exact ((C4_area_filter 1000 [⟨500, ⟨0, 0, 1, 1, 0⟩⟩]).1 _).mpr (by decide)
  · exact (C4_area_filter 1000 [⟨500, ⟨0, 0, 1, 1, 0⟩⟩]).2.2.2.2

/-- The two concrete profiles exhibiting the divergence between the
source's tail-ratio computation and the spec sentence for it. -/
def tailP1 : List ℚ := [10, 5] ++ List.replicate 100 0

def tailP2 : List ℚ := [20, 19]

/-- Counterexample to claim C6.  `tailP1` has 102 profile rows and one
in-band entry; with rect height 2 the code returns `1/2`, not the claimed
`1/102` (the code divides by the rect height argument, not by the number
of profile rows).  `tailP2` with height 2 = number of rows still differs:
the entry 19 sits exactly at 0.95 of the profile maximum 20, which the
claim's strict band excludes but the code's normalization by
`max + 1e-6` includes. -/
theorem C6_counterexample :
    tailRatioOf tailP1 2 ≠ specTailRatio tailP1 ∧
    tailRatioOf tailP2 2 ≠ specTailRatio tailP2 := by
  constructor <;> decide

/-- Claim C6 (amended): in the DIP-like branch, `tail_ratio` equals the
number of row-profile entries whose value lies strictly between
`0.2·(max + 1e-6)` and `0.95·(max + 1e-6)` (the code normalizes by the
profile maximum plus `1e-6`), divided by the rect height argument `h`
(not by the number of profile rows), and it equals 0 when no entry lies
in that band. -/
theorem C6_tail_ratio_amended (p : List ℚ) (hgt : ℚ) (hp : ∀ v ∈ p, 0 ≤ v) :
    tailRatioOf p hgt =
      (if ((p.filter (fun v => decide (((20/100) : ℚ) * (npMax p + 1/1000000) < v ∧
            v < ((95/100) : ℚ) * (npMax p + 1/1000000)))).length) = 0 then 0
       else (((p.filter (fun v => decide (((20/100) : ℚ) * (npMax p + 1/1000000) < v ∧
            v < ((95/100) : ℚ) * (npMax p + 1/1000000)))).length : ℚ)) / hgt) := by
  have hm : (0 : ℚ) < npMax p + 1/1000000 := by
    have := npMax_nonneg hp
    linarith
  unfold tailRatioOf
  dsimp only
  have hfil : (p.map (fun v => v / (npMax p + 1/1000000))).filter
      (fun v => decide (((20/100) : ℚ) < v ∧ v < ((95/100) : ℚ))) =
      (p.filter (fun v => decide (((20/100) : ℚ) * (npMax p + 1/1000000) < v ∧
        v < ((95/100) : ℚ) * (npMax p + 1/1000000)))).map
        (fun v => v / (npMax p + 1/1000000)) := by
    rw [List.filter_map]
    congr 1
    apply List.filter_congr
    intro v hv
    simp only [Function.comp]
    rw [decide_eq_decide]
    exact and_congr (lt_div_iff₀ hm) (div_lt_iff₀ hm)
  rw [hfil, List.length_map]

/-- Witness for C6 (amended) at `tailP1` with rect height 2. -/
theorem C6_witness : tailRatioOf tailP1 2 = 1 / 2 := by
  have h := C6_tail_ratio_amended tailP1 2 (by decide)
  rw [h]
  decide

/-- Claim C7: `get_range` returns the first and last index at which the
profile value strictly exceeds `r · max(profile)`, and `(0, 0)` when the
maximum is 0 or no index exceeds the cutoff; `h_est` (resp. `w_est`)
equals the 90-percent range length, replaced by the rect's own height
(resp. width) whenever that range has zero length, and
`ar_est = w_est / h_est`. -/
theorem C7_get_range_spec (p q : List ℚ) (r w h : ℚ) :
    (npMax p = 0 → get_range p r = (0, 0)) ∧
    ((∀ i, i < p.length → ¬ npMax p * r < p.getD i 0) →
      get_range p r = (0, 0)) ∧
    (∀ j, j < p.length → npMax p * r < p.getD j 0 →
      ((get_range p r).1 < p.length ∧ (get_range p r).2 < p.length ∧
       npMax p * r < p.getD (get_range p r).1 0 ∧
       npMax p * r < p.getD (get_range p r).2 0 ∧
       (get_range p r).1 ≤ j ∧ j ≤ (get_range p r).2)) ∧
    (((get_range p (90/100)).2 : ℤ) - ((get_range p (90/100)).1 : ℤ) = 0 →
      hEstOf h p = h) ∧
    (((get_range p (90/100)).2 : ℤ) - ((get_range p (90/100)).1 : ℤ) ≠ 0 →
      hEstOf h p = ((((get_range p (90/100)).2 : ℤ) -
        ((get_range p (90/100)).1 : ℤ) : ℤ) : ℚ)) ∧
    (((get_range q (90/100)).2 : ℤ) - ((get_range q (90/100)).1 : ℤ) = 0 →
      wEstOf w q = w) ∧
    (((get_range q (90/100)).2 : ℤ) - ((get_range q (90/100)).1 : ℤ) ≠ 0 →
      wEstOf w q = ((((get_range q (90/100)).2 : ℤ) -
        ((get_range q (90/100)).1 : ℤ) : ℤ) : ℚ)) ∧
    arEstOf w h p q = wEstOf w q / hEstOf h p := by
  refine ⟨fun hm => get_range_zero r hm, fun hno => get_range_noIndex r hno,
    fun j hj hpj => get_range_mem_spec hj hpj, ?_, ?_, ?_, ?_, rfl⟩
  · intro h0
    unfold hEstOf
    dsimp only
    rw [if_pos (show ((((get_range p (90/100)).2 : ℤ) -
        ((get_range p (90/100)).1 : ℤ) : ℤ) : ℚ) = 0 by exact_mod_cast h0)]
  · intro h0
    unfold hEstOf
    dsimp only
    rw [if_neg (show ¬ ((((get_range p (90/100)).2 : ℤ) -
        ((get_range p (90/100)).1 : ℤ) : ℤ) : ℚ) = 0 from
      fun hc => h0 (by exact_mod_cast hc))]
  · intro h0
    unfold wEstOf
    dsimp only
    rw [if_pos (show ((((get_range q (90/100)).2 : ℤ) -
        ((get_range q (90/100)).1 : ℤ) : ℤ) : ℚ) = 0 by exact_mod_cast h0)]
  · intro h0
    unfold wEstOf
    dsimp only
    rw [if_neg (show ¬ ((((get_range q (90/100)).2 : ℤ) -
        ((get_range q (90/100)).1 : ℤ) : ℤ) : ℚ) = 0 from
      fun hc => h0 (by exact_mod_cast hc))]

/-- Witness for C7 on the profile `[0, 5, 10, 5, 0]` at ratio 0.9 (only
index 2 exceeds the cutoff 9) and the zero-length fallback at 90
percent. -/
theorem C7_witness :
    ((get_range [0, 5, 10, 5, 0] (9/10)).1 ≤ 2 ∧
     2 ≤ (get_range [0, 5, 10, 5, 0] (9/10)).2) ∧
    hEstOf 7 [0, 5, 10, 5, 0] = 7 := by
  have h := C7_get_range_spec [0, 5, 10, 5, 0] [1] (9/10) 3 7
  have h3 := h.2.2.1 2 (by decide) (by decide)
  exact ⟨⟨h3.2.2.2.2.1, h3.2.2.2.2.2⟩, h.2.2.2.1 (by decide)⟩

/-- Claim C9: `analyze` raises the "no body found" error whenever the
sole detector fails (no usable contour) and never returns a fabricated
zero-confidence geometry in that case; whenever it does return, the
reported confidence equals `0.9` times the refinement success flag, hence
is exactly `0.9` or exactly `0`. -/
theorem C9_no_fabrication_conf_scale (i : AnalyzeInput) :
    (find_ic_body_contour i.imgArea i.contours = none →
      analyze i = .error "Detection failed! Could not find IC body.") ∧
    (∀ ic, find_ic_body_contour i.imgArea i.contours = some ic →
      ∃ res, analyze i = .ok res ∧
        res.confidence =
          (9/10) * (refineProjection ic.rect i.roi i.cosA i.sinA).conf) ∧
    (∀ res, analyze i = .ok res →
      res.confidence = (9/10) ∨ res.confidence = 0) := by
  refine ⟨(analyze_shape i).1, ?_, ?_⟩
  · intro ic hf
    exact ⟨_, (analyze_shape i).2 ic hf, rfl⟩
  · intro res hres
    cases hf : find_ic_body_contour i.imgArea i.contours with
    | none =>
      rw [(analyze_shape i).1 hf] at hres
      exact Except.noConfusion hres
    | some ic =>
      have h2 := (analyze_shape i).2 ic hf
      rw [h2] at hres
      injection hres with h3
      rcases refineProjection_conf01 ic.rect i.roi i.cosA i.sinA with h0 | h1
      · right
        rw [← h3]
        dsimp only
        rw [h0, mul_zero]
      · left
        rw [← h3]
        dsimp only
        rw [h1, mul_one]

/-- Witness for C9: a contour that fails the area filter makes `analyze`
error out, and on a returned result the confidence is 0.9 or 0. -/
theorem C9_witness :
    analyze ⟨1000, [⟨5, ⟨0, 0, 1, 1, 0⟩⟩], none, 1, 0⟩ =
      .error "Detection failed! Could not find IC body." ∧
    ((⟨1, 1, 0, 0, "1/1 (Robust Adaptive)",
        [⟨1, 1, 0, 0, "Adaptive_Threshold"⟩]⟩ : FinalResult).confidence = (9/10) ∨
     (⟨1, 1, 0, 0, "1/1 (Robust Adaptive)",
        [⟨1, 1, 0, 0, "Adaptive_Threshold"⟩]⟩ : FinalResult).confidence = 0) := by
  constructor
  · exact (C9_no_fabrication_conf_scale
      ⟨1000, [⟨5, ⟨0, 0, 1, 1, 0⟩⟩], none, 1, 0⟩).1 (by decide)
  · exact (C9_no_fabrication_conf_scale
      ⟨1000, [⟨500, ⟨0, 0, 1, 1, 0⟩⟩], none, 1, 0⟩).2.2 _ (by decide)

/-- Claim C8: every failure of the crop path — null input, no contours,
no contour passing the area filter, failed ROI extraction, refined size
below the 10-pixel floor — is returned as a structured error with a
distinct message per failure mode; and in the analyze path, when either
refined dimension is below 10 pixels the refinement returns the
unrefined (normalized) rect with confidence factor 0. -/
theorem C8_failure_reporting :
    (∀ e1 e2 : CropError, e1.message = e2.message → e1 = e2) ∧
    process_image none = .error .imageNone ∧
    (∀ i : CropInput, i.contours = [] →
        process_image (some i) = .error .noContours) ∧
    (∀ i : CropInput, i.contours ≠ [] →
        validContours i.imgArea i.contours = [] →
        process_image (some i) = .error .noValidContours) ∧
    (∀ i : CropInput, validContours i.imgArea i.contours ≠ [] →
        i.roi = none → process_image (some i) = .error .roiFailed) ∧
    (∀ (i : CropInput) (rs cs : List ℚ),
        validContours i.imgArea i.contours ≠ [] → i.roi = some (rs, cs) →
        (((get_range rs (85/100)).2 : ℤ) - ((get_range rs (85/100)).1 : ℤ) < 10 ∨
         ((get_range cs (80/100)).2 : ℤ) - ((get_range cs (80/100)).1 : ℤ) < 10) →
        process_image (some i) = .error .dimsTooSmall) ∧
    (∀ (rect : RotRect) (rs cs : List ℚ) (cosA sinA : ℚ),
        ¬ (rs = [] ∨ cs = []) →
        refineDegenerate (normalizeRect rect).w (normalizeRect rect).h rs cs →
        refineProjection rect (some (rs, cs)) cosA sinA =
          ⟨(normalizeRect rect).w, (normalizeRect rect).h,
           (normalizeRect rect).cx, (normalizeRect rect).cy,
           (normalizeRect rect).angle, 0⟩) := by
  refine ⟨by decide, rfl, ?_, ?_, ?_, ?_,
    fun rect rs cs cosA sinA hne hdeg =>
      refineProjection_degenerate rect rs cs cosA sinA hne hdeg⟩
  · intro i hc
    obtain ⟨A, cts, roi⟩ := i
    dsimp only at hc
    subst hc
    rfl
  · intro i hne hv
    obtain ⟨A, cts, roi⟩ := i
    dsimp only at hne hv ⊢
    cases cts with
    | nil => exact absurd rfl hne
    | cons a t =>
      unfold process_image
      dsimp only
      rw [hv]
  · intro i hne hroi
    obtain ⟨A, cts, roi⟩ := i
    dsimp only at hne hroi ⊢
    subst hroi
    cases cts with
    | nil => exact absurd rfl hne
    | cons a t =>
      unfold process_image
      dsimp only
      cases hv : validContours A (a :: t) with
      | nil => exact absurd hv hne
      | cons c rest => rfl
  · intro i rs cs hne hroi hsm
    obtain ⟨A, cts, roi⟩ := i
    dsimp only at hne hroi ⊢
    subst hroi
    cases cts with
    | nil => exact absurd rfl hne
    | cons a t =>
      unfold process_image
      dsimp only
      cases hv : validContours A (a :: t) with
      | nil => exact absurd hv hne
      | cons c rest =>
        dsimp only
        rw [if_pos hsm]

/-- Witness for C8: each crop-path failure mode observed on a concrete
input, and a degenerate refinement returning the unrefined rect. -/
theorem C8_witness :
    process_image (some ⟨100, [], none⟩) = .error .noContours ∧
    process_image (some ⟨100, [⟨1, ⟨0, 0, 1, 1, 0⟩⟩], none⟩) =
      .error .noValidContours ∧
    process_image (some ⟨100, [⟨50, ⟨0, 0, 1, 1, 0⟩⟩], none⟩) =
      .error .roiFailed ∧
    process_image (some ⟨100, [⟨50, ⟨0, 0, 1, 1, 0⟩⟩], some ([5], [5])⟩) =
      .error .dimsTooSmall ∧
    refineProjection ⟨0, 0, 1, 1, 0⟩ (some ([5], [5])) 1 0 =
      ⟨1, 1, 0, 0, 0, 0⟩ := by
  refine ⟨C8_failure_reporting.2.2.1 _ rfl, ?_, ?_, ?_, ?_⟩
  · exact C8_failure_reporting.2.2.2.1 _ (by decide) (by decide)
  · exact C8_failure_reporting.2.2.2.2.1 _ (by decide) rfl
  · exact C8_failure_reporting.2.2.2.2.2.1 _ [5] [5] (by decide) rfl (by decide)
  · exact C8_failure_reporting.2.2.2.2.2.2 ⟨0, 0, 1, 1, 0⟩ [5] [5] 1 0
      (by decide) (by decide)

/-- A concrete DIP-like input on which both pipelines succeed: image area
20000, one contour of area 341 with min-area rect centered at (100, 50),
size 31 x 11, angle 0; the ROI profiles are consistent with the padded ROI
sizes `int(11+100) = 111` rows and `int(31+100) = 131` columns: an
11-row-high body (row profile) and a column profile with a 29-column
plateau at value 10 flanked by two columns at 7.5 (= 15/2). -/
def cex_contour : Contour := ⟨341, ⟨100, 50, 31, 11, 0⟩⟩

def cex_rs : List ℚ :=
  List.replicate 50 0 ++ List.replicate 11 10 ++ List.replicate 50 0

def cex_cs : List ℚ :=
  List.replicate 50 0 ++ ([15/2] ++ List.replicate 29 10 ++ [15/2]) ++
    List.replicate 50 0

/-- Claim C5: on refinement success the corrected center equals the
normalized rect center plus the offset of the refined region's center
`((x_start+x_end)/2, (y_start+y_end)/2)` from the ROI's geometric center
`(roi_w // 2, roi_h // 2)` (with `roi_w = int(w + 2·50)`,
`roi_h = int(h + 2·50)`), that offset rotated by the inverse of the
straightening rotation, whose cosine and sine the pipeline receives as
`cosA = cos(radians(-angle))` and `sinA = sin(radians(-angle))`. -/
theorem C5_center_reprojection (rect : RotRect) (rs cs : List ℚ)
    (cosA sinA : ℚ)
    (hconf : (refineProjection rect (some (rs, cs)) cosA sinA).conf = 1) :
    ((refineProjection rect (some (rs, cs)) cosA sinA).cx,
     (refineProjection rect (some (rs, cs)) cosA sinA).cy) =
      ((normalizeRect rect).cx, (normalizeRect rect).cy) +
        rot2 cosA sinA
          ((((refineBranch (normalizeRect rect).w (normalizeRect rect).h rs cs).2.1 : ℚ) +
             ((refineBranch (normalizeRect rect).w (normalizeRect rect).h rs cs).2.2 : ℚ)) / 2 -
            ((Int.fdiv (pyInt ((normalizeRect rect).w + 50 * 2)) 2 : ℤ) : ℚ),
           (((refineBranch (normalizeRect rect).w (normalizeRect rect).h rs cs).1.1 : ℚ) +
             ((refineBranch (normalizeRect rect).w (normalizeRect rect).h rs cs).1.2 : ℚ)) / 2 -
            ((Int.fdiv (pyInt ((normalizeRect rect).h + 50 * 2)) 2 : ℤ) : ℚ)) := by
  obtain ⟨hne, hdeg⟩ := refineProjection_succ_cases rect rs cs cosA sinA hconf
  rw [refineProjection_success rect rs cs cosA sinA hne hdeg]
  unfold rot2
  rw [Prod.mk_add_mk]

/-- Witness for C5 at the concrete successful input `cex_*` with
`angle = 0` (`cosA = 1`, `sinA = 0`): the refined center stays at the
rect center (100, 50). -/
theorem C5_witness :
    ((refineProjection ⟨100, 50, 31, 11, 0⟩ (some (cex_rs, cex_cs)) 1 0).cx,
     (refineProjection ⟨100, 50, 31, 11, 0⟩ (some (cex_rs, cex_cs)) 1 0).cy) =
      (100, 50) := by
  have h := C5_center_reprojection ⟨100, 50, 31, 11, 0⟩ cex_rs cex_cs 1 0
    (by decide)
  rw [h]
  decide

lemma refineBranch_exists (w h : ℚ) (rs cs : List ℚ) :
    ∃ th tw, refineBranch w h rs cs = (get_range rs th, get_range cs tw) := by
  unfold refineBranch
  split_ifs <;> exact ⟨_, _, rfl⟩

lemma range_bound (p : List ℚ) (t H : ℚ)
    (hlen : p.length = (pyInt (H + 100)).toNat)
    (hbig : (10 : ℤ) ≤ ((get_range p t).2 : ℤ) - ((get_range p t).1 : ℤ)) :
    (10 : ℚ) ≤ ((((get_range p t).2 : ℤ) - ((get_range p t).1 : ℤ) : ℤ) : ℚ) ∧
    ((((get_range p t).2 : ℤ) - ((get_range p t).1 : ℤ) : ℤ) : ℚ) ≤ H + 100 := by
  refine ⟨by exact_mod_cast hbig, ?_⟩
  rcases get_range_cases p t with hz | ⟨h1, h2, h3⟩
  · rw [hz] at hbig
    norm_num at hbig
  · have hlt : (get_range p t).2 < p.length := h2
    have hlen0 : 0 < p.length := lt_of_le_of_lt (Nat.zero_le _) hlt
    have hpos : 0 < pyInt (H + 100) := by
      rw [hlen] at hlen0
      omega
    have hH : (0 : ℚ) ≤ H + 100 := by
      by_contra hneg
      push_neg at hneg
      have hfl : (0 : ℤ) ≤ ⌊-(H + 100)⌋ := by
        rw [Int.le_floor]
        push_cast
        linarith
      have hle : pyInt (H + 100) ≤ 0 := by
        unfold pyInt
        rw [if_pos hneg]
        omega
      omega
    have hfloor : pyInt (H + 100) = ⌊H + 100⌋ := by
      unfold pyInt
      rw [if_neg (not_lt.mpr hH)]
    have htn : ((pyInt (H + 100)).toNat : ℤ) = pyInt (H + 100) :=
      Int.toNat_of_nonneg (le_of_lt hpos)
    have hlenZ : (p.length : ℤ) = ⌊H + 100⌋ := by
      rw [hlen, htn, hfloor]
    have hstep : ((get_range p t).2 : ℤ) - ((get_range p t).1 : ℤ) ≤
        (p.length : ℤ) - 1 := by
      have hc : ((get_range p t).2 : ℤ) < (p.length : ℤ) := by
        exact_mod_cast hlt
      omega
    have hcast : ((((get_range p t).2 : ℤ) - ((get_range p t).1 : ℤ) : ℤ) : ℚ) ≤
        ((p.length : ℤ) : ℚ) - 1 := by
      exact_mod_cast hstep
    rw [hlenZ] at hcast
    have hfl2 : ((⌊H + 100⌋ : ℤ) : ℚ) ≤ H + 100 := Int.floor_le _
    linarith

/-- Claim C10: on every successful refinement the refined width and
height each lie between 10 and the corresponding normalized rect
dimension plus `2·pad` with `pad = 50`, because the `get_range` indices
are positions inside the padded ROI of `int(h+100)` rows and
`int(w+100)` columns; the same bound holds for a returned crop, whose
`original_width`/`original_height` are the normalized rect dimensions. -/
theorem C10_padded_roi_bound (rect : RotRect) (rs cs : List ℚ)
    (cosA sinA : ℚ) (i : CropInput) (stats : CropStats) :
    ((refineProjection rect (some (rs, cs)) cosA sinA).conf = 1 →
      rs.length = (pyInt ((normalizeRect rect).h + 100)).toNat →
      cs.length = (pyInt ((normalizeRect rect).w + 100)).toNat →
      10 ≤ (refineProjection rect (some (rs, cs)) cosA sinA).h ∧
      (refineProjection rect (some (rs, cs)) cosA sinA).h ≤
        (normalizeRect rect).h + 100 ∧
      10 ≤ (refineProjection rect (some (rs, cs)) cosA sinA).w ∧
      (refineProjection rect (some (rs, cs)) cosA sinA).w ≤
        (normalizeRect rect).w + 100) ∧
    (process_image (some i) = .ok stats → i.roi = some (rs, cs) →
      rs.length = (pyInt (stats.original_height + 100)).toNat →
      cs.length = (pyInt (stats.original_width + 100)).toNat →
      10 ≤ stats.height ∧ stats.height ≤ stats.original_height + 100 ∧
      10 ≤ stats.width ∧ stats.width ≤ stats.original_width + 100) := by
  constructor
  · intro hconf hlr hlc
    obtain ⟨hne, hdeg⟩ := refineProjection_succ_cases rect rs cs cosA sinA hconf
    have hd2 := hdeg
    unfold refineDegenerate at hd2
    obtain ⟨hA, hB⟩ := not_or.mp hd2
    rw [refineProjection_success rect rs cs cosA sinA hne hdeg]
    obtain ⟨th, tw, hth⟩ :=
      refineBranch_exists (normalizeRect rect).w (normalizeRect rect).h rs cs
    rw [hth] at hA hB
    dsimp only
    rw [hth]
    have hrow := range_bound rs th ((normalizeRect rect).h) hlr (le_of_not_lt hA)
    have hcol := range_bound cs tw ((normalizeRect rect).w) hlc (le_of_not_lt hB)
    exact ⟨hrow.1, hrow.2, hcol.1, hcol.2⟩
  · intro hok hroi hlr hlc
    obtain ⟨ic, rs', cs', hfind, hroi', hsm, hstats⟩ :=
      process_image_ok_shape i stats hok
    rw [hroi] at hroi'
    injection hroi' with hpair
    injection hpair with h1 h2
    subst h1
    subst h2
    obtain ⟨hyA, hyB⟩ := not_or.mp hsm
    subst hstats
    dsimp only at hlr hlc ⊢
    have hrow := range_bound rs (85/100) ((normalizeRect ic.rect).h) hlr
      (le_of_not_lt hyA)
    have hcol := range_bound cs (80/100) ((normalizeRect ic.rect).w) hlc
      (le_of_not_lt hyB)
    exact ⟨hrow.1, hrow.2, hcol.1, hcol.2⟩

/-- Witness for C10 at the concrete successful input `cex_*`, whose
profile lengths 111 and 131 match the padded ROI of the 31 x 11 rect. -/
theorem C10_witness :
    10 ≤ (refineProjection ⟨100, 50, 31, 11, 0⟩ (some (cex_rs, cex_cs)) 1 0).h ∧
    (refineProjection ⟨100, 50, 31, 11, 0⟩ (some (cex_rs, cex_cs)) 1 0).h ≤
      (normalizeRect ⟨100, 50, 31, 11, 0⟩).h + 100 ∧
    10 ≤ (refineProjection ⟨100, 50, 31, 11, 0⟩ (some (cex_rs, cex_cs)) 1 0).w ∧
    (refineProjection ⟨100, 50, 31, 11, 0⟩ (some (cex_rs, cex_cs)) 1 0).w ≤
      (normalizeRect ⟨100, 50, 31, 11, 0⟩).w + 100 :=
  (C10_padded_roi_bound ⟨100, 50, 31, 11, 0⟩ cex_rs cex_cs 1 0
      ⟨0, [], none⟩ ⟨0, 0, 0, 0, 0⟩).1 (by decide) (by decide) (by decide)

/-- Counterexample to claim C1.  On the DIP-like input `cex_*`
(aspect-ratio estimate 2.8 routes the analyze path to the strict DIP
thresholds `(0.959, 0.70)`, while the crop path always uses the fixed
pair `(0.85, 0.80)`), both paths succeed on the same contour, rect and
ROI profiles, yet the analyze path reports width 30 and the crop path
reports width 28: the two columns at 15/2 = 0.75 of the profile maximum
are inside the 0.70 cutoff but outside the 0.80 cutoff. -/
theorem C1_counterexample :
    analyze ⟨20000, [cex_contour], some (cex_rs, cex_cs), 1, 0⟩ =
      .ok ⟨30, 10, 0, 9/10, "1/1 (Robust Adaptive)",
        [⟨30, 10, 0, 9/10, "Adaptive_Threshold"⟩]⟩ ∧
    process_image (some ⟨20000, [cex_contour], some (cex_rs, cex_cs)⟩) =
      .ok ⟨28, 10, 0, 31, 11⟩ ∧
    (30 : ℚ) ≠ 28 := by
  exact ⟨by decide, by decide, by norm_num⟩

lemma refineProjection_angle (rect : RotRect) (roi : Option (List ℚ × List ℚ))
    (cosA sinA : ℚ) :
    (refineProjection rect roi cosA sinA).angle = (normalizeRect rect).angle := by
  cases roi with
  | none => rfl
  | some pr =>
    obtain ⟨rs, cs⟩ := pr
    by_cases hne : rs = [] ∨ cs = []
    · rw [refineProjection_empty rect rs cs cosA sinA hne]
    · by_cases hdeg : refineDegenerate (normalizeRect rect).w
          (normalizeRect rect).h rs cs
      · rw [refineProjection_degenerate rect rs cs cosA sinA hne hdeg]
      · rw [refineProjection_success rect rs cs cosA sinA hne hdeg]

/-- Claim C1 (amended): the two paths share contour selection and rect
normalization; for every input on which both succeed, the reported angle
of the crop path equals the reported angle of the measurement-only path
unconditionally (every exit of the refinement reports the normalized rect
angle), and the refined widths and heights agree whenever the analyze
path's family branch selects the standard SOIC/QFP thresholds
`(0.85, 0.80)` — the fixed pair the crop path always uses — but in
general the crop path's fixed thresholds diverge from the analyze path's
family-dependent ones. -/
theorem C1_crop_measure_agreement
    (A : ℚ) (contours : List Contour) (rs cs : List ℚ) (cosA sinA : ℚ)
    (ic : Contour) (res : FinalResult) (stats : CropStats)
    (hfind : find_ic_body_contour A contours = some ic)
    (hres : analyze ⟨A, contours, some (rs, cs), cosA, sinA⟩ = .ok res)
    (hcrop : process_image (some ⟨A, contours, some (rs, cs)⟩) = .ok stats) :
    stats.angle = res.angle ∧
    (branchStd (normalizeRect ic.rect).w (normalizeRect ic.rect).h rs cs →
      stats.width = res.width ∧ stats.height = res.height) := by
  obtain ⟨ic', rs', cs', hfind', hroi', hsm', hstats⟩ :=
    process_image_ok_shape ⟨A, contours, some (rs, cs)⟩ stats hcrop
  dsimp only at hfind' hroi'
  rw [hfind] at hfind'
  injection hfind' with hic
  subst hic
  injection hroi' with hpair
  injection hpair with h1 h2
  subst h1
  subst h2
  have hshape := (analyze_shape ⟨A, contours, some (rs, cs), cosA, sinA⟩).2 ic hfind
  rw [hshape] at hres
  injection hres with hres'
  subst hres'
  constructor
  · rw [hstats]
    dsimp only
    rw [refineProjection_angle]
  · intro hstd
    have hne : ¬ (rs = [] ∨ cs = []) := by
      intro hor
      rcases hor with h0 | h0
      · subst h0
        exact hsm' (Or.inl (by decide))
      · subst h0
        exact hsm' (Or.inr (by decide))
    have hdeg : ¬ refineDegenerate (normalizeRect ic.rect).w
        (normalizeRect ic.rect).h rs cs := by
      unfold refineDegenerate
      rw [refineBranch_std _ _ _ _ hstd]
      exact hsm'
    have hsucc := refineProjection_success ic.rect rs cs cosA sinA hne hdeg
    rw [hstats]
    dsimp only
    rw [hsucc]
    dsimp only
    rw [refineBranch_std _ _ _ _ hstd]
    exact ⟨rfl, rfl⟩

/-- The concrete SOIC-like input for the C1 witness: a 31 x 21 rect with
clean plateau profiles, routed to the standard `(0.85, 0.80)` branch. -/
def wit_contour : Contour := ⟨500, ⟨0, 0, 31, 21, 0⟩⟩

def wit_rs : List ℚ := 0 :: (List.replicate 21 10 ++ [0])

def wit_cs : List ℚ := 0 :: (List.replicate 31 10 ++ [0])

/-- Witness for C1 (amended) at the concrete input `wit_*`, on which both
paths report 30 x 20 at angle 0. -/
theorem C1_witness :
    (⟨30, 20, 0, 31, 21⟩ : CropStats).angle =
      (⟨30, 20, 0, 9/10, "1/1 (Robust Adaptive)",
        [⟨30, 20, 0, 9/10, "Adaptive_Threshold"⟩]⟩ : FinalResult).angle ∧
    (⟨30, 20, 0, 31, 21⟩ : CropStats).width =
      (⟨30, 20, 0, 9/10, "1/1 (Robust Adaptive)",
        [⟨30, 20, 0, 9/10, "Adaptive_Threshold"⟩]⟩ : FinalResult).width ∧
    (⟨30, 20, 0, 31, 21⟩ : CropStats).height =
      (⟨30, 20, 0, 9/10, "1/1 (Robust Adaptive)",
        [⟨30, 20, 0, 9/10, "Adaptive_Threshold"⟩]⟩ : FinalResult).height := by
  have h := C1_crop_measure_agreement 1000 [wit_contour] wit_rs wit_cs 1 0
    wit_contour
    ⟨30, 20, 0, 9/10, "1/1 (Robust Adaptive)",
      [⟨30, 20, 0, 9/10, "Adaptive_Threshold"⟩]⟩
    ⟨30, 20, 0, 31, 21⟩ (by decide) (by decide) (by decide)
  exact ⟨h.1, (h.2 (by decide)).1, (h.2 (by decide)).2⟩

end AuthentiChip
